import Mathlib

/-!
Shallow embedding of `src/src/csip.c` (the CSIP wrapper around the SCIP
mixed-integer programming engine).

Conventions of the embedding:
* C `double` values are modelled by `ℚ` (exact arithmetic; negation is exact,
  as it also is for IEEE doubles).  The one place where the code relies on the
  special value NaN (the `objbound` field, set via `strtod("NaN", NULL)`) is
  modelled by `Option ℚ` with `none` standing for NaN.
* Engine (`SCIP*`) handles are inlined: a `SCIP_VAR*` is embedded as the record
  of the variable data the wrapper reads and writes through it, and the
  wrapper's handle arrays hold those records directly.  A null pointer is
  `none` of an `Option`.
* The engine itself is a black box (spec §6).  Calls into it that merely
  construct or mutate data reachable from the wrapper are embedded as state
  updates; calls whose outcome the wrapper cannot predict (the search itself,
  solution checking, solution acceptance, allocation success) are given by
  explicit oracle parameters, so theorems quantify over every engine
  behaviour.
* The backing arrays of the growable stores are modelled by the list of
  entries written so far (`model->vars[0 .. nvars-1]`); the uninitialized
  capacity tail carries no information.  A store whose pointer was lost to a
  failed `realloc` is `none`.
-/

/-- Wrapper return codes (`CSIP_RETCODE`).  The enum is declared in `csip.h`;
the constructor names follow the uses in `csip.c`. -/
inductive CSIP_RETCODE where
  | OK
  | NOMEMORY
  | ERROR
deriving DecidableEq, Repr

/-- Modelled from the spec: `csip.h`, which fixes the integer values of the
`CSIP_RETCODE` enum, is not under `src/`.  The spec (§7) gives the taxonomy
{OK, OUT_OF_MEMORY, GENERIC_ERROR}; the values below follow the header's
enumeration order with `OK = 0`.  No theorem in this file depends on the
particular value chosen for the generic error code. -/
def CSIP_RETCODE.toInt : CSIP_RETCODE → Int
  | .OK => 0
  | .ERROR => 1
  | .NOMEMORY => 2

/-- Wrapper terminal solve statuses (`CSIP_STATUS`), the reduced status set of
spec §4.1.  `INFORUNBD` is the wrapper's infeasible-or-unbounded status. -/
inductive CSIP_STATUS where
  | UNKNOWN
  | USERLIMIT
  | NODELIMIT
  | TIMELIMIT
  | MEMLIMIT
  | OPTIMAL
  | INFEASIBLE
  | UNBOUNDED
  | INFORUNBD
deriving DecidableEq, Repr

/-- Engine return codes, as far as `csip.c` distinguishes them: `SCIP_OKAY`,
`SCIP_NOMEMORY`, and everything else.  The constructor `ERROR` stands for
`SCIP_ERROR` together with every other non-okay, non-out-of-memory code,
which `retCodeSCIPtoCSIP` treats identically (its `default` branch). -/
inductive SCIP_Retcode where
  | OKAY
  | NOMEMORY
  | ERROR
deriving DecidableEq, Repr

/-- Engine terminal statuses read by `getStatus`.  The fifteen named
constructors are the cases of the `switch` in `csip.c`; `OTHER` stands for
any engine status outside that recognized list (the `switch`'s `default`
case; the engine's full enum lives in the SCIP headers, not under `src/`). -/
inductive SCIP_Status where
  | UNKNOWN
  | USERINTERRUPT
  | NODELIMIT
  | TOTALNODELIMIT
  | STALLNODELIMIT
  | TIMELIMIT
  | MEMLIMIT
  | GAPLIMIT
  | SOLLIMIT
  | BESTSOLLIMIT
  | RESTARTLIMIT
  | OPTIMAL
  | INFEASIBLE
  | UNBOUNDED
  | INFORUNBD
  | OTHER
deriving DecidableEq, Repr

/-- Engine stages, as far as `csip.c` looks at them: `CSIPcbAddLinCons`
compares the stage against `SCIP_STAGE_SOLVED` only. -/
inductive SCIP_STAGE where
  | PROBLEM
  | TRANSFORMED
  | SOLVING
  | SOLVED
deriving DecidableEq, Repr

/-- Engine result codes used by the plugin callbacks in `csip.c`. -/
inductive SCIP_RESULT where
  | FEASIBLE
  | INFEASIBLE
  | CONSADDED
  | DIDNOTFIND
  | FOUNDSOL
deriving DecidableEq, Repr

/-- Variable types (`CSIP_VARTYPE`); numerically identical to the engine's
`SCIP_VARTYPE`, which is why `csip.c` passes them through unchanged. -/
inductive CSIP_VARTYPE where
  | BINARY
  | INTEGER
  | IMPLINT
  | CONTINUOUS
deriving DecidableEq, Repr

/-- Objective senses (`SCIP_OBJSENSE`). -/
inductive SCIP_OBJSENSE where
  | MINIMIZE
  | MAXIMIZE
deriving DecidableEq, Repr

/-- The data of an engine variable that `csip.c` reads and writes through a
`SCIP_VAR*` handle: bounds, objective coefficient, and type. -/
structure SCIP_VAR where
  lb : ℚ
  ub : ℚ
  obj : ℚ
  vtype : CSIP_VARTYPE
deriving DecidableEq, Repr

/-- A solution object (`SCIP_SOL`): the dense value array set through
`SCIPsetSolVals`. -/
abbrev SCIP_SOL := List ℚ

/-- The data of an engine linear constraint built by `createLinCons`: the
accumulated (variable, coefficient) terms and the range `[lhs, rhs]`. -/
structure SCIP_CONS where
  terms : List (SCIP_VAR × ℚ)
  lhs : ℚ
  rhs : ℚ
deriving DecidableEq, Repr

/-- The engine-session state that `csip.c` observes or mutates directly:
the stage, the problem's variables and constraints handed over through
`SCIPaddVar` and `SCIPaddCons`, and the best solution. -/
structure SCIP where
  stage : SCIP_STAGE
  vars : List SCIP_VAR
  conss : List SCIP_CONS
  bestSol : Option SCIP_SOL
deriving DecidableEq, Repr

/-- `INITIALSIZE` (starting capacity of the growable stores). -/
def INITIALSIZE : Nat := 64

/-- `GROWFACTOR` (geometric growth factor of the growable stores). -/
def GROWFACTOR : Nat := 2

/-- `struct csip_model`.  The `scip` session handle is passed alongside where
a function touches it.  `vars` and `conss` are the filled parts of the two
backing arrays (`none` models a null pointer after a failed `realloc`);
`objbound` is `none` for the NaN the field starts out as. -/
structure CSIP_MODEL where
  nvars : Nat
  varssize : Nat
  vars : Option (List SCIP_VAR)
  nconss : Nat
  consssize : Nat
  conss : Option (List SCIP_CONS)
  nlazycb : Nat
  nheur : Nat
  sense : SCIP_OBJSENSE
  initialsol : Option SCIP_SOL
  status : CSIP_STATUS
  objbound : Option ℚ
deriving DecidableEq, Repr

/-- Default variable record used to totalize out-of-bounds array reads, which
in the C are undefined behaviour. -/
def dfltVar : SCIP_VAR := { lb := 0, ub := 0, obj := 0, vtype := .CONTINUOUS }

/-- `getStatus` (static, `csip.c` lines 92-131): translate the engine's
terminal status into the wrapper's reduced status set.  In the C the function
receives the model and reads `SCIPgetStatus(model->scip)`; here the engine's
status is the argument. -/
def getStatus : SCIP_Status → CSIP_STATUS
  | .UNKNOWN => .UNKNOWN
  | .USERINTERRUPT => .USERLIMIT
  | .NODELIMIT => .NODELIMIT
  | .TOTALNODELIMIT => .NODELIMIT
  | .STALLNODELIMIT => .USERLIMIT
  | .TIMELIMIT => .TIMELIMIT
  | .MEMLIMIT => .MEMLIMIT
  | .GAPLIMIT => .USERLIMIT
  | .SOLLIMIT => .USERLIMIT
  | .BESTSOLLIMIT => .USERLIMIT
  | .RESTARTLIMIT => .USERLIMIT
  | .OPTIMAL => .OPTIMAL
  | .INFEASIBLE => .INFEASIBLE
  | .UNBOUNDED => .UNBOUNDED
  | .INFORUNBD => .INFORUNBD
  | .OTHER => .UNKNOWN

/-- `retCodeSCIPtoCSIP`: `SCIP_OKAY ↦ OK`, `SCIP_NOMEMORY ↦ NOMEMORY`,
everything else (the `default` branch) `↦ ERROR`. -/
def retCodeSCIPtoCSIP : SCIP_Retcode → CSIP_RETCODE
  | .OKAY => .OK
  | .NOMEMORY => .NOMEMORY
  | .ERROR => .ERROR

/-- `retCodeCSIPtoSCIP`: `OK ↦ SCIP_OKAY`, `NOMEMORY ↦ SCIP_NOMEMORY`,
everything else (`ERROR`) `↦ SCIP_ERROR`. -/
def retCodeCSIPtoSCIP : CSIP_RETCODE → SCIP_Retcode
  | .OK => .OKAY
  | .NOMEMORY => .NOMEMORY
  | .ERROR => .ERROR

/-- The `CSIP_CALL` macro: run the next step only when the previous one
returned `CSIP_RETCODE_OK`, otherwise return its code at once (the model
state at the point of failure stays visible to the caller, as it does through
the C pointer). -/
def csipCall (step : CSIP_RETCODE × CSIP_MODEL)
    (k : CSIP_MODEL → CSIP_RETCODE × CSIP_MODEL) : CSIP_RETCODE × CSIP_MODEL :=
  match step with
  | (.OK, m) => k m
  | (c, m) => (c, m)

/-- The filled part of the variable array, with a null pointer read as the
empty list (the C would crash there). -/
def CSIP_MODEL.varsD (m : CSIP_MODEL) : List SCIP_VAR := m.vars.getD []

/-- `createLinCons`: build a basic linear constraint with range `[lhs, rhs]`
and add one coefficient per listed variable index
(`SCIPcreateConsBasicLinear` followed by the `SCIPaddCoefLinear` loop over
`model->vars[indices[i]]`, `coefs[i]`). -/
def createLinCons (m : CSIP_MODEL) (indices : List Nat) (coefs : List ℚ)
    (lhs rhs : ℚ) : SCIP_CONS :=
  { terms := (indices.zip coefs).map (fun p => (m.varsD.getD p.1 dfltVar, p.2)),
    lhs := lhs, rhs := rhs }

/-- `addCons` (static): hand the constraint to the engine (`SCIPaddCons`),
grow the constraint store by `GROWFACTOR` when full (`realloc`, whose success
is the oracle argument `allocOk`; on failure the C overwrites `model->conss`
with the null result and returns `CSIP_RETCODE_NOMEMORY`), then record the
handle at index `nconss` and increment the count.  The returned `Option Nat`
is the `idx` out-parameter; the C's two branches (`idx != NULL` or not) store
the handle identically.  Writing through an already-null array pointer is
undefined behaviour in the C; the embedding totalizes that unreachable path
by returning `NOMEMORY` without storing. -/
def addCons (allocOk : Bool) (scip : SCIP) (m : CSIP_MODEL) (cons : SCIP_CONS) :
    CSIP_RETCODE × SCIP × CSIP_MODEL × Option Nat :=
  let scip := { scip with conss := scip.conss ++ [cons] }
  if m.nconss ≥ m.consssize then
    let m := { m with consssize := GROWFACTOR * m.consssize,
                      conss := if allocOk then some (m.conss.getD []) else none }
    match m.conss with
    | none => (.NOMEMORY, scip, m, none)
    | some l =>
        (.OK, scip,
         { m with conss := some (l ++ [cons]), nconss := m.nconss + 1 },
         some m.nconss)
  else
    match m.conss with
    | none => (.NOMEMORY, scip, m, none)
    | some l =>
        (.OK, scip,
         { m with conss := some (l ++ [cons]), nconss := m.nconss + 1 },
         some m.nconss)

/-- `reformSenseMinimize`: when the declared sense is MAXIMIZE, negate every
stored variable's objective coefficient in place (`coef = SCIPvarGetObj(var);
SCIPchgVarObj(scip, var, -1.0 * coef)` over `model->vars[0 .. nvars-1]`).
`SCIPchgVarObj` is a plain field write here, so the embedded function is
total and the C's `CSIP_RETCODE` result is the constant `OK`. -/
def reformSenseMinimize (m : CSIP_MODEL) : CSIP_MODEL :=
  if m.sense = .MAXIMIZE then
    { m with vars := m.vars.map (List.map (fun var => { var with obj := -1 * var.obj })) }
  else m

/-- `CSIPcreateModel`, success path: the freshly created model record
(`csip.c` lines 226-248).  Engine-session creation and the allocation of the
two capacity-64 backing arrays are black-box steps whose failure aborts
creation before any of these fields matter; the filled parts start empty. -/
def CSIPcreateModel : CSIP_MODEL :=
  { nvars := 0, varssize := INITIALSIZE, vars := some [],
    nconss := 0, consssize := INITIALSIZE, conss := some [],
    nlazycb := 0, nheur := 0,
    sense := .MINIMIZE,
    initialsol := none,
    status := .UNKNOWN,
    objbound := none }

/-- `CSIPaddVar`: create the variable (`SCIPcreateVarBasic` with objective
coefficient `0.0`), register it with the engine (`SCIPaddVar`), grow the
variable store when full (same `realloc` pattern as `addCons`, with the same
oracle argument), then record the handle at index `nvars` and increment the
count; the already-null-pointer path is totalized as in `addCons`. -/
def CSIPaddVar (allocOk : Bool) (scip : SCIP) (m : CSIP_MODEL)
    (lowerbound upperbound : ℚ) (vartype : CSIP_VARTYPE) :
    CSIP_RETCODE × SCIP × CSIP_MODEL × Option Nat :=
  let var : SCIP_VAR := { lb := lowerbound, ub := upperbound, obj := 0, vtype := vartype }
  let scip := { scip with vars := scip.vars ++ [var] }
  if m.nvars ≥ m.varssize then
    let m := { m with varssize := GROWFACTOR * m.varssize,
                      vars := if allocOk then some (m.vars.getD []) else none }
    match m.vars with
    | none => (.NOMEMORY, scip, m, none)
    | some l =>
        (.OK, scip,
         { m with vars := some (l ++ [var]), nvars := m.nvars + 1 },
         some m.nvars)
  else
    match m.vars with
    | none => (.NOMEMORY, scip, m, none)
    | some l =>
        (.OK, scip,
         { m with vars := some (l ++ [var]), nvars := m.nvars + 1 },
         some m.nvars)

/-- `CSIPchgVarType`: change the variable's type (`SCIPchgVarType`; the
`infeas` out-flag it computes is ignored by the C), then clamp a binary
variable's lower bound to `0` when it is negative and its upper bound to `1`
when it is above one (`SCIPchgVarLb` / `SCIPchgVarUb`).  A null variable
array would be dereferenced by the C; the embedding returns the model
unchanged there. -/
def CSIPchgVarType (m : CSIP_MODEL) (varindex : Nat) (vartype : CSIP_VARTYPE) :
    CSIP_RETCODE × CSIP_MODEL :=
  match m.vars with
  | none => (.OK, m)
  | some l =>
      let var := l.getD varindex dfltVar
      let var := { var with vtype := vartype }
      let var := if vartype = .BINARY ∧ var.lb < 0 then { var with lb := 0 } else var
      let var := if vartype = .BINARY ∧ var.ub > 1 then { var with ub := 1 } else var
      (.OK, { m with vars := some (l.set varindex var) })

/-- The outcomes of the engine calls made by one run of `CSIPsolve`, in call
order: the result of `SCIPaddSolFree` (reached only when an initial solution
is pending), the result of `SCIPsolve`, the terminal status and dual bound
the engine reports after the search, and the result of `SCIPfreeTransform`.
The engine does not mutate the original (untransformed) problem's objective
coefficients; `SCIPfreeTransform` restores the original problem. -/
structure SolveOracle where
  addSolRet : SCIP_Retcode
  solveRet : SCIP_Retcode
  finalStatus : SCIP_Status
  dualbound : ℚ
  freeTransRet : SCIP_Retcode
deriving DecidableEq, Repr

/-- `CSIPsolve` (`csip.c` lines 529-554): toggle the objective sense
(`reformSenseMinimize`), hand over a pending initial solution
(`SCIPaddSolFree`, which consumes it), run the search (`SCIPsolve`), cache
the translated terminal status and the sign-adjusted dual bound, discard the
engine's transformed state (`SCIPfreeTransform`), and toggle the sense back. -/
def CSIPsolve (o : SolveOracle) (m : CSIP_MODEL) : CSIP_RETCODE × CSIP_MODEL :=
  csipCall (.OK, reformSenseMinimize m) fun m =>
  csipCall (match m.initialsol with
            | some _ => (retCodeSCIPtoCSIP o.addSolRet, { m with initialsol := none })
            | none => (.OK, m)) fun m =>
  csipCall (retCodeSCIPtoCSIP o.solveRet, m) fun m =>
  let m := { m with status := getStatus o.finalStatus }
  let dual := o.dualbound
  let m := { m with objbound := some (if m.sense = .MINIMIZE then dual else -dual) }
  csipCall (retCodeSCIPtoCSIP o.freeTransRet, m) fun m =>
  csipCall (.OK, reformSenseMinimize m) fun m =>
  (.OK, m)

/-- `CSIPgetStatus`: return the cached status field. -/
def CSIPgetStatus (m : CSIP_MODEL) : CSIP_STATUS :=
  m.status

/-- `CSIPgetObjValue`: when the engine holds no best solution, return
`CSIP_RETCODE_ERROR` — an enum integer implicitly converted to the `double`
return type; otherwise return the solution's original-problem objective value
(`SCIPgetSolOrigObj`, a black-box engine computation passed in as
`solOrigObj`), negated when the declared sense is MAXIMIZE. -/
def CSIPgetObjValue (solOrigObj : SCIP_SOL → ℚ) (scip : SCIP) (m : CSIP_MODEL) : ℚ :=
  match scip.bestSol with
  | none => ((CSIP_RETCODE.ERROR).toInt : ℚ)
  | some sol =>
      let objval := solOrigObj sol
      if m.sense = .MINIMIZE then objval else -objval

/-- `CSIPgetObjBound`: return the cached bound field (`none` is the NaN the
field is created with). -/
def CSIPgetObjBound (m : CSIP_MODEL) : Option ℚ :=
  m.objbound

/-- `struct SCIP_ConshdlrData`, the lazy-constraint session: the check-mode
flag, the feasibility verdict, and the candidate-solution pointer.  The
`model` pointer is passed alongside where needed, and the `callback` and
`userdata` fields are passed as a Lean function argument (the user callback,
closed over its user data, acting on the session it is handed). -/
structure SCIP_CONSHDLRDATA where
  checkonly : Bool
  feasible : Bool
  sol : Option SCIP_SOL
deriving DecidableEq, Repr

/-- The user lazy callback as the bridge sees it: it receives the session and
returns its `CSIP_RETCODE` together with the session as it left it. -/
abbrev LazyCallback := SCIP_CONSHDLRDATA → CSIP_RETCODE × SCIP_CONSHDLRDATA

/-- `consEnfolpLazy` (`SCIP_DECL_CONSENFOLP`): set `*result` to `FEASIBLE`,
put the session into enforcement mode with the verdict reset to feasible, run
the user callback (`CSIP_in_SCIP` aborts with the translated code if it
fails; `*result` is still `FEASIBLE` then), and report `CONSADDED` when the
callback left the verdict infeasible.  The returned triple is (the handler's
engine return code, `*result`, the session). -/
def consEnfolpLazy (callback : LazyCallback) (d : SCIP_CONSHDLRDATA) :
    SCIP_Retcode × SCIP_RESULT × SCIP_CONSHDLRDATA :=
  let result := SCIP_RESULT.FEASIBLE
  let d := { d with checkonly := false, feasible := true }
  match callback d with
  | (c, d) =>
      match retCodeCSIPtoSCIP c with
      | .OKAY =>
          let result := if !d.feasible then SCIP_RESULT.CONSADDED else result
          (.OKAY, result, d)
      | sc => (sc, result, d)

/-- `consEnfopsLazy` (`SCIP_DECL_CONSENFOPS`): delegates to `consEnfolpLazy`. -/
def consEnfopsLazy (callback : LazyCallback) (d : SCIP_CONSHDLRDATA) :
    SCIP_Retcode × SCIP_RESULT × SCIP_CONSHDLRDATA :=
  consEnfolpLazy callback d

/-- `consCheckLazy` (`SCIP_DECL_CONSCHECK`): set `*result` to `FEASIBLE`, put
the session into check-only mode with the verdict reset to feasible and the
candidate solution stored, run the user callback, and report `INFEASIBLE`
when the callback left the verdict infeasible. -/
def consCheckLazy (callback : LazyCallback) (sol : Option SCIP_SOL)
    (d : SCIP_CONSHDLRDATA) : SCIP_Retcode × SCIP_RESULT × SCIP_CONSHDLRDATA :=
  let result := SCIP_RESULT.FEASIBLE
  let d := { d with checkonly := true, feasible := true, sol := sol }
  match callback d with
  | (c, d) =>
      match retCodeCSIPtoSCIP c with
      | .OKAY =>
          let result := if !d.feasible then SCIP_RESULT.INFEASIBLE else result
          (.OKAY, result, d)
      | sc => (sc, result, d)

/-- The session's target solution, the pattern repeated in
`CSIPcbGetVarValues` and `CSIPcbAddLinCons`: `cbdata->sol` in check-only
mode, the null pointer (the engine's current working solution) otherwise. -/
def cbSol (d : SCIP_CONSHDLRDATA) : Option SCIP_SOL :=
  if d.checkonly then d.sol else none

/-- `CSIPcbAddLinCons` (`csip.c` lines 806-858): pick the session's target
solution; when the engine is already in its fully-solved stage, mark the
verdict feasible and return `OK` at once (constraint mutation is illegal
then); otherwise build the constraint, check it against the target solution
(`SCIPcheckCons`, a black-box engine judgement passed in as `checkCons`),
mark the verdict infeasible when the check says so, and hand the constraint
to the engine's active search (`SCIPaddCons`) only outside check-only mode.
The final `SCIPreleaseCons` drops the wrapper's reference and is a no-op on
the embedded state.  The model (reached through `cbdata->model`) is threaded
through to make its (un)changedness expressible; `islocal` is an argument the
C function never uses. -/
def CSIPcbAddLinCons (checkCons : SCIP_CONS → Option SCIP_SOL → SCIP_RESULT)
    (scip : SCIP) (m : CSIP_MODEL) (d : SCIP_CONSHDLRDATA)
    (indices : List Nat) (coefs : List ℚ) (lhs rhs : ℚ) (islocal : Bool) :
    CSIP_RETCODE × SCIP × CSIP_MODEL × SCIP_CONSHDLRDATA :=
  let _ := islocal
  let sol := if d.checkonly then d.sol else none
  if scip.stage = .SOLVED then
    (.OK, scip, m, { d with feasible := true })
  else
    let cons := createLinCons m indices coefs lhs rhs
    let result := checkCons cons sol
    let d := if result = .INFEASIBLE then { d with feasible := false } else d
    let scip := if !d.checkonly then { scip with conss := scip.conss ++ [cons] } else scip
    (.OK, scip, m, d)

/-- `struct SCIP_HeurData`, the heuristic session: the
solution-under-construction slot.  As with the lazy session, the `model`,
`heur` and `userdata` pointers are passed alongside, and the user callback is
a Lean function argument. -/
structure SCIP_HEURDATA where
  sol : Option SCIP_SOL
deriving DecidableEq, Repr

/-- The user heuristic callback as the bridge sees it. -/
abbrev HeurCallback := SCIP_HEURDATA → CSIP_RETCODE × SCIP_HEURDATA

/-- `heurExecUser` (`SCIP_DECL_HEUREXEC`): set `*result` to `DIDNOTFIND`
(the slot is asserted empty here), run the user callback (`CSIP_in_SCIP`
aborts with the translated code if it fails), and when it left a candidate in
the slot, submit it to the engine's acceptance routine (`SCIPtrySolFree`,
whose accept/reject judgement is the oracle `trySolStored`; it frees the
solution either way, emptying the slot) and report `FOUNDSOL` exactly when
the engine stored it. -/
def heurExecUser (trySolStored : SCIP_SOL → Bool) (callback : HeurCallback)
    (d : SCIP_HEURDATA) : SCIP_Retcode × SCIP_RESULT × SCIP_HEURDATA :=
  let result := SCIP_RESULT.DIDNOTFIND
  match callback d with
  | (c, d) =>
      match retCodeCSIPtoSCIP c with
      | .OKAY =>
          match d.sol with
          | some s =>
              let stored := trySolStored s
              let d := { d with sol := none }
              if stored then (.OKAY, .FOUNDSOL, d) else (.OKAY, result, d)
          | none => (.OKAY, result, d)
      | sc => (sc, result, d)

/-!  Helper lemmas. -/

theorem negList_invol (l : List SCIP_VAR) :
    List.map (fun var => { var with obj := -1 * var.obj })
      (List.map (fun var => { var with obj := -1 * var.obj }) l) = l := by
  induction l with
  | nil => rfl
  | cons v t ih =>
      cases v with
      | mk lb ub obj vt =>
          simp only [List.map_cons, ih, List.cons.injEq, and_true,
            SCIP_VAR.mk.injEq, true_and]
          ring

theorem negOpt_invol (vs : Option (List SCIP_VAR)) :
    Option.map (List.map fun var => { var with obj := -1 * var.obj })
      (Option.map (List.map fun var => { var with obj := -1 * var.obj }) vs) = vs := by
  cases vs with
  | none => rfl
  | some l => simpa using negList_invol l

theorem negComp_id :
    ((fun var : SCIP_VAR => { lb := var.lb, ub := var.ub, obj := -var.obj, vtype := var.vtype }) ∘
      fun var : SCIP_VAR => { lb := var.lb, ub := var.ub, obj := -var.obj, vtype := var.vtype }) =
    id := by
  funext v
  cases v with
  | mk lb ub obj vt => simp [Function.comp]

theorem reform_sense (m : CSIP_MODEL) :
    (reformSenseMinimize m).sense = m.sense := by
  unfold reformSenseMinimize; split <;> rfl

theorem reform_initialsol (m : CSIP_MODEL) :
    (reformSenseMinimize m).initialsol = m.initialsol := by
  unfold reformSenseMinimize; split <;> rfl

theorem reform_status (m : CSIP_MODEL) :
    (reformSenseMinimize m).status = m.status := by
  unfold reformSenseMinimize; split <;> rfl

theorem reform_objbound (m : CSIP_MODEL) :
    (reformSenseMinimize m).objbound = m.objbound := by
  unfold reformSenseMinimize; split <;> rfl

theorem reform_of_min (m : CSIP_MODEL) (h : m.sense = .MINIMIZE) :
    reformSenseMinimize m = m := by
  unfold reformSenseMinimize; rw [h]; simp

theorem reform_vars_of_max (m : CSIP_MODEL) (h : m.sense = .MAXIMIZE) :
    (reformSenseMinimize m).vars =
      m.vars.map (List.map fun var => { var with obj := -1 * var.obj }) := by
  unfold reformSenseMinimize; rw [h]; simp

/-!  Claim theorems. -/

/-- C1: for a MAXIMIZE model, a solve that returns OK negates every stored
objective coefficient before the search and again after the transformed state
is discarded, so the final coefficients (indeed, the whole stored variable
records) equal their values immediately before the solve; for a MINIMIZE
model, solve leaves the stored variables unchanged on every path. -/
theorem claim_C1_sense_toggle (o : SolveOracle) (m : CSIP_MODEL) :
    ((CSIPsolve o m).1 = .OK → (CSIPsolve o m).2.vars = m.vars) ∧
    (m.sense = .MINIMIZE → (CSIPsolve o m).2.vars = m.vars) ∧
    (m.sense = .MAXIMIZE →
      (reformSenseMinimize m).vars =
        m.vars.map (List.map fun var => { var with obj := -1 * var.obj })) := by
  refine ⟨?_, ?_, reform_vars_of_max m⟩
  · intro hok
    cases hs : m.sense <;>
      cases hini : m.initialsol <;>
        cases ha : o.addSolRet <;>
          cases hv : o.solveRet <;>
            cases hf : o.freeTransRet <;>
              simp_all [CSIPsolve, csipCall, retCodeSCIPtoCSIP,
                reform_of_min, reform_vars_of_max, reform_sense,
                reformSenseMinimize, negOpt_invol, negList_invol, negComp_id]
  · intro hs
    cases hini : m.initialsol <;>
      cases ha : o.addSolRet <;>
        cases hv : o.solveRet <;>
          cases hf : o.freeTransRet <;>
            simp_all [CSIPsolve, csipCall, retCodeSCIPtoCSIP,
              reform_of_min, reformSenseMinimize]

/-- C2: during every solve that reaches the search and whose search call
succeeds, the translated terminal status and the sign-adjusted dual bound are
cached in the model before the transformed state is discarded (so they are
cached whatever `SCIPfreeTransform` then does); `CSIPgetStatus` and
`CSIPgetObjBound` return exactly these cached fields afterwards, and on a
freshly created model `CSIPgetObjBound` returns the NaN (`none`) the field
was created with. -/
theorem claim_C2_cached_status_bound (o : SolveOracle) (m : CSIP_MODEL)
    (hadd : m.initialsol = none ∨ retCodeSCIPtoCSIP o.addSolRet = .OK)
    (hsolve : retCodeSCIPtoCSIP o.solveRet = .OK) :
    CSIPgetStatus (CSIPsolve o m).2 = getStatus o.finalStatus ∧
    CSIPgetObjBound (CSIPsolve o m).2 =
      some (if m.sense = .MINIMIZE then o.dualbound else -o.dualbound) ∧
    CSIPgetObjBound CSIPcreateModel = none := by
  refine ⟨?_, ?_, rfl⟩ <;>
    cases hs : m.sense <;>
      cases hini : m.initialsol <;>
        cases ha : o.addSolRet <;>
          cases hv : o.solveRet <;>
            cases hf : o.freeTransRet <;>
              simp_all [CSIPsolve, csipCall, retCodeSCIPtoCSIP, CSIPgetStatus,
                CSIPgetObjBound, reform_status, reform_objbound, reform_sense,
                reform_initialsol, reformSenseMinimize]

/-- C9: the status translator collapses every engine terminal status into the
wrapper's reduced set: each limit reason goes to a limit status, each
terminal algorithmic outcome to its counterpart, and any engine status
outside the recognized list to UNKNOWN. -/
theorem claim_C9_status_translation :
    getStatus .UNKNOWN = .UNKNOWN ∧
    getStatus .USERINTERRUPT = .USERLIMIT ∧
    getStatus .NODELIMIT = .NODELIMIT ∧
    getStatus .TOTALNODELIMIT = .NODELIMIT ∧
    getStatus .STALLNODELIMIT = .USERLIMIT ∧
    getStatus .TIMELIMIT = .TIMELIMIT ∧
    getStatus .MEMLIMIT = .MEMLIMIT ∧
    getStatus .GAPLIMIT = .USERLIMIT ∧
    getStatus .SOLLIMIT = .USERLIMIT ∧
    getStatus .BESTSOLLIMIT = .USERLIMIT ∧
    getStatus .RESTARTLIMIT = .USERLIMIT ∧
    getStatus .OPTIMAL = .OPTIMAL ∧
    getStatus .INFEASIBLE = .INFEASIBLE ∧
    getStatus .UNBOUNDED = .UNBOUNDED ∧
    getStatus .INFORUNBD = .INFORUNBD ∧
    getStatus .OTHER = .UNKNOWN := by
  decide

/-- Oracle of a fully successful solve, for concrete evaluations. -/
def oracleW : SolveOracle :=
  { addSolRet := .OKAY, solveRet := .OKAY, finalStatus := .OPTIMAL,
    dualbound := 5, freeTransRet := .OKAY }

/-- A one-variable MAXIMIZE model, for concrete evaluations. -/
def mMaxW : CSIP_MODEL :=
  { CSIPcreateModel with
    sense := .MAXIMIZE, nvars := 1,
    vars := some [{ lb := 0, ub := 1, obj := 3, vtype := .CONTINUOUS }] }

/-- A one-variable MINIMIZE model, for concrete evaluations. -/
def mMinW : CSIP_MODEL :=
  { CSIPcreateModel with
    nvars := 1,
    vars := some [{ lb := 0, ub := 1, obj := 3, vtype := .CONTINUOUS }] }

/-- C1 witness: the sense-toggle theorem applied to a concrete successful
solve of a MAXIMIZE model and of a MINIMIZE model. -/
theorem claim_C1_sense_toggle_witness :
    (CSIPsolve oracleW mMaxW).2.vars = mMaxW.vars ∧
    (CSIPsolve oracleW mMinW).2.vars = mMinW.vars ∧
    (reformSenseMinimize mMaxW).vars =
      mMaxW.vars.map (List.map fun var => { var with obj := -1 * var.obj }) :=
  ⟨(claim_C1_sense_toggle oracleW mMaxW).1 (by decide),
   (claim_C1_sense_toggle oracleW mMinW).2.1 rfl,
   (claim_C1_sense_toggle oracleW mMaxW).2.2 rfl⟩

/-- C2 witness: the caching theorem applied to a concrete successful solve of
a MAXIMIZE model. -/
theorem claim_C2_cached_status_bound_witness :
    CSIPgetStatus (CSIPsolve oracleW mMaxW).2 = getStatus SCIP_Status.OPTIMAL ∧
    CSIPgetObjBound (CSIPsolve oracleW mMaxW).2 =
      some (if mMaxW.sense = .MINIMIZE then oracleW.dualbound else -oracleW.dualbound) ∧
    CSIPgetObjBound CSIPcreateModel = none :=
  claim_C2_cached_status_bound oracleW mMaxW (Or.inl rfl) rfl

/-- A linear-constraint handle, for concrete evaluations. -/
def consW : SCIP_CONS := { terms := [], lhs := 0, rhs := 0 }

/-- An engine session in the problem-building stage, for concrete
evaluations. -/
def scipW : SCIP := { stage := .PROBLEM, vars := [], conss := [], bestSol := none }

/-- A model whose two stores are both full (count = capacity = 1), for
concrete evaluations of the growth path. -/
def mFullW : CSIP_MODEL :=
  { CSIPcreateModel with
    nconss := 1, consssize := 1, conss := some [consW],
    nvars := 1, varssize := 1, vars := some [dfltVar] }

/-- C3 counterexample: registering a constraint on a full store whose growth
allocation fails does return OUT_OF_MEMORY, but the store is not left in its
prior valid state — the capacity field and the backing-array pointer both
change. -/
theorem claim_C3_cex :
    (addCons false scipW mFullW consW).1 = .NOMEMORY ∧
    ¬((addCons false scipW mFullW consW).2.2.1.consssize = mFullW.consssize ∧
      (addCons false scipW mFullW consW).2.2.1.conss = mFullW.conss) := by
  decide

/-- C3 amended: when the store is full and the growth allocation fails, the
operation returns OUT_OF_MEMORY, the element count is unchanged and the new
entry is not appended (no index is reported), but the capacity field is left
doubled and the backing-array pointer is overwritten with the failed
allocation's null result, so the previously stored handles are no longer
reachable from the store; the engine-side registration performed before the
growth attempt remains.  The same holds for the variable store. -/
theorem claim_C3_grow_fail (scip : SCIP) (m : CSIP_MODEL) (cons : SCIP_CONS)
    (lb ub : ℚ) (t : CSIP_VARTYPE) :
    (m.nconss ≥ m.consssize →
      addCons false scip m cons =
        (.NOMEMORY, { scip with conss := scip.conss ++ [cons] },
         { m with consssize := GROWFACTOR * m.consssize, conss := none }, none)) ∧
    (m.nvars ≥ m.varssize →
      CSIPaddVar false scip m lb ub t =
        (.NOMEMORY,
         { scip with vars := scip.vars ++ [{ lb := lb, ub := ub, obj := 0, vtype := t }] },
         { m with varssize := GROWFACTOR * m.varssize, vars := none }, none)) := by
  constructor <;> intro h <;> simp [addCons, CSIPaddVar, h]

/-- C3 witness: the amended theorem applied to the concrete full store. -/
theorem claim_C3_grow_fail_witness :
    addCons false scipW mFullW consW =
      (.NOMEMORY, { scipW with conss := [consW] },
       { mFullW with consssize := 2, conss := none }, none) ∧
    CSIPaddVar false scipW mFullW 0 1 .BINARY =
      (.NOMEMORY,
       { scipW with vars := [{ lb := 0, ub := 1, obj := 0, vtype := .BINARY }] },
       { mFullW with varssize := 2, vars := none }, none) := by
  have h := claim_C3_grow_fail scipW mFullW consW 0 1 .BINARY
  exact ⟨by simpa using h.1 (by decide), by simpa using h.2 (by decide)⟩

/-- C4: both lazy-callback entry points reset the session verdict to feasible
(and set the mode flag) before running the user callback; in enforcement
mode the result reported to the engine is FEASIBLE when the callback left the
verdict feasible and CONSADDED otherwise, in check mode it is FEASIBLE or
INFEASIBLE on the same condition; the check-mode session's target solution is
the specific candidate being checked, while the enforcement-mode session's
target solution is none (the engine's current working solution). -/
theorem claim_C4_lazy_bridge (cb : LazyCallback) (d : SCIP_CONSHDLRDATA) (s : SCIP_SOL)
    (he : (cb { d with checkonly := false, feasible := true }).1 = .OK)
    (hc : (cb { d with checkonly := true, feasible := true, sol := some s }).1 = .OK) :
    consEnfolpLazy cb d =
      (.OKAY,
       if (cb { d with checkonly := false, feasible := true }).2.feasible then .FEASIBLE
       else .CONSADDED,
       (cb { d with checkonly := false, feasible := true }).2) ∧
    consCheckLazy cb (some s) d =
      (.OKAY,
       if (cb { d with checkonly := true, feasible := true, sol := some s }).2.feasible
       then .FEASIBLE else .INFEASIBLE,
       (cb { d with checkonly := true, feasible := true, sol := some s }).2) ∧
    cbSol { d with checkonly := true, feasible := true, sol := some s } = some s ∧
    cbSol { d with checkonly := false, feasible := true } = none := by
  refine ⟨?_, ?_, by simp [cbSol], by simp [cbSol]⟩
  · rcases hcb : cb { d with checkonly := false, feasible := true } with ⟨c, d2⟩
    rw [hcb] at he
    simp only [consEnfolpLazy, hcb]
    cases c <;> simp_all [retCodeCSIPtoSCIP] <;> cases d2.feasible <;> simp_all
  · rcases hcb : cb { d with checkonly := true, feasible := true, sol := some s } with ⟨c, d2⟩
    rw [hcb] at hc
    simp only [consCheckLazy, hcb]
    cases c <;> simp_all [retCodeCSIPtoSCIP] <;> cases d2.feasible <;> simp_all

/-- A user lazy callback that always marks the verdict infeasible, for
concrete evaluations. -/
def cbW : LazyCallback := fun d => (.OK, { d with feasible := false })

/-- A lazy-constraint session record, for concrete evaluations. -/
def dW : SCIP_CONSHDLRDATA := { checkonly := false, feasible := false, sol := none }

/-- A candidate solution, for concrete evaluations. -/
def sW : SCIP_SOL := [1]

/-- C4 witness: the bridge theorem applied to a concrete always-infeasible
callback. -/
theorem claim_C4_lazy_bridge_witness :
    consEnfolpLazy cbW dW =
      (.OKAY, .CONSADDED, { checkonly := false, feasible := false, sol := none }) ∧
    consCheckLazy cbW (some sW) dW =
      (.OKAY, .INFEASIBLE, { checkonly := true, feasible := false, sol := some sW }) ∧
    cbSol { checkonly := true, feasible := true, sol := some sW } = some sW ∧
    cbSol { checkonly := false, feasible := true, sol := none } = none := by
  have h := claim_C4_lazy_bridge cbW dW sW rfl rfl
  simpa [cbW, dW] using h

/-- C5: adding a lazy constraint from a callback while the engine is not in
its fully-solved stage returns OK, leaves the model (in particular its
constraint count and constraint array) unchanged, checks the built constraint
against the session's target solution and sets the verdict to infeasible
exactly when that check reports infeasible (leaving it as it was otherwise),
and hands the constraint to the engine's active search only in enforcement
mode, never in check-only mode. -/
theorem claim_C5_cb_lazy_cons (checkCons : SCIP_CONS → Option SCIP_SOL → SCIP_RESULT)
    (scip : SCIP) (m : CSIP_MODEL) (d : SCIP_CONSHDLRDATA)
    (indices : List Nat) (coefs : List ℚ) (lhs rhs : ℚ) (islocal : Bool)
    (h : scip.stage ≠ .SOLVED) :
    (CSIPcbAddLinCons checkCons scip m d indices coefs lhs rhs islocal).1 = .OK ∧
    (CSIPcbAddLinCons checkCons scip m d indices coefs lhs rhs islocal).2.2.1 = m ∧
    (CSIPcbAddLinCons checkCons scip m d indices coefs lhs rhs islocal).2.2.2.feasible =
      (if checkCons (createLinCons m indices coefs lhs rhs) (cbSol d) = .INFEASIBLE
       then false else d.feasible) ∧
    (CSIPcbAddLinCons checkCons scip m d indices coefs lhs rhs islocal).2.1.conss =
      (if d.checkonly then scip.conss
       else scip.conss ++ [createLinCons m indices coefs lhs rhs]) := by
  obtain ⟨co, fe, so⟩ := d
  cases co with
  | false =>
      simp only [CSIPcbAddLinCons, cbSol, if_neg h]
      cases hcc : checkCons (createLinCons m indices coefs lhs rhs) none <;> simp_all
  | true =>
      simp only [CSIPcbAddLinCons, cbSol, if_neg h]
      cases hcc : checkCons (createLinCons m indices coefs lhs rhs) so <;> simp_all

/-- An engine judgement that finds every constraint infeasible, for concrete
evaluations. -/
def checkConsW : SCIP_CONS → Option SCIP_SOL → SCIP_RESULT := fun _ _ => .INFEASIBLE

/-- An engine session in the solving stage, for concrete evaluations. -/
def scipSolvingW : SCIP := { stage := .SOLVING, vars := [], conss := [], bestSol := none }

/-- C5 witness: the theorem applied in enforcement mode during the solving
stage, with a check that reports infeasible. -/
theorem claim_C5_cb_lazy_cons_witness :
    (CSIPcbAddLinCons checkConsW scipSolvingW mMinW dW [0] [1] 0 1 false).1 = .OK ∧
    (CSIPcbAddLinCons checkConsW scipSolvingW mMinW dW [0] [1] 0 1 false).2.2.1 = mMinW ∧
    (CSIPcbAddLinCons checkConsW scipSolvingW mMinW dW [0] [1] 0 1 false).2.2.2.feasible = false ∧
    (CSIPcbAddLinCons checkConsW scipSolvingW mMinW dW [0] [1] 0 1 false).2.1.conss =
      [createLinCons mMinW [0] [1] 0 1] := by
  have h := claim_C5_cb_lazy_cons checkConsW scipSolvingW mMinW dW [0] [1] 0 1 false (by decide)
  simpa [checkConsW, dW, scipSolvingW] using h

/-- C6: adding a lazy constraint when the engine is already in its
fully-solved stage returns OK immediately after marking the verdict feasible,
with the engine session and the model untouched; the result does not depend
on the check judgement at all (the equation holds for every `checkCons`), so
no constraint is built, checked, or added. -/
theorem claim_C6_solved_short_circuit
    (checkCons : SCIP_CONS → Option SCIP_SOL → SCIP_RESULT)
    (scip : SCIP) (m : CSIP_MODEL) (d : SCIP_CONSHDLRDATA)
    (indices : List Nat) (coefs : List ℚ) (lhs rhs : ℚ) (islocal : Bool)
    (h : scip.stage = .SOLVED) :
    CSIPcbAddLinCons checkCons scip m d indices coefs lhs rhs islocal =
      (.OK, scip, m, { d with feasible := true }) := by
  simp [CSIPcbAddLinCons, h]

/-- An engine session in the solved stage, for concrete evaluations. -/
def scipSolvedW : SCIP := { stage := .SOLVED, vars := [], conss := [], bestSol := none }

/-- C6 witness: the short-circuit theorem applied at the solved stage. -/
theorem claim_C6_solved_short_circuit_witness :
    CSIPcbAddLinCons checkConsW scipSolvedW mMinW dW [0] [1] 0 1 false =
      (.OK, scipSolvedW, mMinW, { dW with feasible := true }) :=
  claim_C6_solved_short_circuit checkConsW scipSolvedW mMinW dW [0] [1] 0 1 false rfl

/-- C7: a heuristic-callback invocation that starts with an empty
solution-under-construction slot (the asserted precondition) and whose user
callback returns OK ends with the slot empty again; the result reported to
the engine is DIDNOTFIND when the callback supplied no candidate, and
otherwise FOUNDSOL exactly when the engine's acceptance routine stored the
candidate. -/
theorem claim_C7_heur_bridge (tryStored : SCIP_SOL → Bool) (cb : HeurCallback)
    (d : SCIP_HEURDATA) (hpre : d.sol = none) (hcb : (cb d).1 = .OK) :
    (heurExecUser tryStored cb d).1 = .OKAY ∧
    (heurExecUser tryStored cb d).2.2.sol = none ∧
    (heurExecUser tryStored cb d).2.1 =
      (match (cb d).2.sol with
       | none => .DIDNOTFIND
       | some s => if tryStored s then .FOUNDSOL else .DIDNOTFIND) := by
  rcases hc : cb d with ⟨c, d2⟩
  rw [hc] at hcb
  simp only [heurExecUser, hc]
  cases c <;> simp_all [retCodeCSIPtoSCIP] <;>
    cases hds : d2.sol <;> simp_all <;>
      split <;> simp_all

/-- A user heuristic callback that installs the all-zero candidate, for
concrete evaluations. -/
def cbHeurW : HeurCallback := fun d => (.OK, { d with sol := some [0] })

/-- An engine acceptance routine that stores every candidate, for concrete
evaluations. -/
def tryStoredW : SCIP_SOL → Bool := fun _ => true

/-- C7 witness: the bridge theorem applied to a concrete candidate-supplying
callback with an accepting engine. -/
theorem claim_C7_heur_bridge_witness :
    (heurExecUser tryStoredW cbHeurW { sol := none }).1 = .OKAY ∧
    (heurExecUser tryStoredW cbHeurW { sol := none }).2.2.sol = none ∧
    (heurExecUser tryStoredW cbHeurW { sol := none }).2.1 = .FOUNDSOL := by
  have h := claim_C7_heur_bridge tryStoredW cbHeurW { sol := none } rfl rfl
  simpa [cbHeurW, tryStoredW] using h

/-- C8: changing a variable's type to binary when its lower bound is below 0
and its upper bound is above 1 leaves it with bounds exactly [0, 1]; changing
its type to any non-binary type never mutates its bounds. -/
theorem claim_C8_binary_clamp (m : CSIP_MODEL) (l : List SCIP_VAR) (i : Nat)
    (t : CSIP_VARTYPE) (hm : m.vars = some l) :
    ((l.getD i dfltVar).lb < 0 → 1 < (l.getD i dfltVar).ub →
      (CSIPchgVarType m i .BINARY).2.vars =
        some (l.set i { l.getD i dfltVar with vtype := .BINARY, lb := 0, ub := 1 })) ∧
    (t ≠ .BINARY →
      (CSIPchgVarType m i t).2.vars =
        some (l.set i { l.getD i dfltVar with vtype := t })) := by
  constructor
  · intro hl hu
    simp_all [CSIPchgVarType]
  · intro ht
    simp_all [CSIPchgVarType]

/-- A model with one variable whose bounds exceed [0, 1] on both sides, for
concrete evaluations. -/
def mWideW : CSIP_MODEL :=
  { CSIPcreateModel with
    nvars := 1,
    vars := some [{ lb := -2, ub := 3, obj := 0, vtype := .CONTINUOUS }] }

/-- C8 witness: the clamp theorem applied to the concrete wide-bounded
variable, once changing to binary and once to integer. -/
theorem claim_C8_binary_clamp_witness :
    (CSIPchgVarType mWideW 0 .BINARY).2.vars =
      some [{ lb := 0, ub := 1, obj := 0, vtype := .BINARY }] ∧
    (CSIPchgVarType mWideW 0 .INTEGER).2.vars =
      some [{ lb := -2, ub := 3, obj := 0, vtype := .INTEGER }] := by
  have h := claim_C8_binary_clamp mWideW
    [{ lb := -2, ub := 3, obj := 0, vtype := .CONTINUOUS }] 0 .INTEGER rfl
  exact ⟨by simpa using h.1 (by norm_num) (by norm_num), by simpa using h.2 (by decide)⟩

/-- C10: when the engine holds no best solution, `CSIPgetObjValue` returns
the integer value of the generic error return code converted to a double,
in band; and there is a genuine objective value (an engine state holding a
best solution) on which it returns exactly the same value, so the failure
result is indistinguishable from that objective value. -/
theorem claim_C10_objvalue_error_in_band (solOrigObj : SCIP_SOL → ℚ)
    (scip : SCIP) (m : CSIP_MODEL) (h : scip.bestSol = none) :
    CSIPgetObjValue solOrigObj scip m = ((CSIP_RETCODE.ERROR).toInt : ℚ) ∧
    ∃ (f2 : SCIP_SOL → ℚ) (scip2 : SCIP) (m2 : CSIP_MODEL),
      scip2.bestSol ≠ none ∧
      CSIPgetObjValue f2 scip2 m2 = ((CSIP_RETCODE.ERROR).toInt : ℚ) := by
  refine ⟨by simp [CSIPgetObjValue, h],
    fun _ => ((CSIP_RETCODE.ERROR).toInt : ℚ),
    { stage := .PROBLEM, vars := [], conss := [], bestSol := some [] },
    CSIPcreateModel, by simp, by simp [CSIPgetObjValue, CSIPcreateModel]⟩

/-- C10 witness: the theorem applied to a concrete engine session without a
best solution; on it `CSIPgetObjValue` returns the error code's value, 1. -/
theorem claim_C10_objvalue_error_in_band_witness :
    CSIPgetObjValue (fun _ => 0) scipW mMinW = 1 :=
  (claim_C10_objvalue_error_in_band (fun _ => 0) scipW mMinW rfl).1
